import Mathlib

/-!
Verification development for the ImpactGuard dashboard repository.

The model is a shallow embedding of the background-task lifecycle
(security_tests.py and the legacy guared.py variant), the session-state
bookkeeping (session_state.py) and the DOI format validation (guared.py).
Python dict values are modelled by a JSON-like `Val` type; dict results
are association lists so that claims about result *shape* (which keys are
present) are statable.  Sources of nondeterminism (the shared running
flag as read at each loop check, random.random / random.choice draws,
datetime.now timestamps) are oracle functions packaged in an `Env`
structure, so theorems quantify over every possible run.
-/

namespace ImpactGuard

/-- JSON-like value modelling Python scalars, lists and dicts. -/
inductive Val where
  | null : Val
  | bool (b : Bool) : Val
  | num (q : ℚ) : Val
  | str (s : String) : Val
  | list (xs : List Val) : Val
  | obj (fields : List (String × Val)) : Val

/-- Key lookup in a dict-shaped `Val` (none on non-dicts). -/
def get_key : Val → String → Option Val
  | .obj fields, k => fields.lookup k
  | _, _ => none

/-- A target dict; the code only ever reads `target["name"]`. -/
structure Target where
  name : String

/-- A static test-vector catalog entry. -/
structure TestVector where
  id : String
  name : String
  category : String
  severity : String

/-- A synthesized vulnerability record. -/
structure Vulnerability where
  id : String
  test_vector : String
  test_name : String
  severity : String
  details : String
  timestamp : String

/-- The summary sub-dict of a result. -/
structure Summary where
  total_tests : ℕ
  vulnerabilities_found : ℕ
  risk_score : ℕ

/-- Severity weight table from run_mock_test:
`{"low": 1, "medium": 2, "high": 3, "critical": 5}.get(severity, 1)`. -/
def severity_weight (sev : String) : ℕ :=
  if sev = "low" then 1
  else if sev = "medium" then 2
  else if sev = "high" then 3
  else if sev = "critical" then 5
  else 1

/-- Python random.choice: uniform draw from a sequence, where `k` is the
drawn raw index supplied by the random oracle; raises IndexError on an
empty sequence (CPython message shown). -/
def random_choice {α : Type} (xs : List α) (k : ℕ) : Except String α :=
  match xs with
  | [] => .error "Cannot choose from an empty sequence"
  | y :: ys => .ok ((y :: ys).get ⟨k % (y :: ys).length, Nat.mod_lt _ (Nat.succ_pos _)⟩)

/-- The built-in three-entry catalog from security_tests.get_mock_test_vectors. -/
def get_mock_test_vectors : List TestVector :=
  [ { id := "sql_injection", name := "SQL Injection", category := "owasp", severity := "high" },
    { id := "xss", name := "Cross-Site Scripting", category := "owasp", severity := "medium" },
    { id := "prompt_injection", name := "Prompt Injection", category := "owasp", severity := "critical" } ]

namespace SecurityTests

/-- Oracles for one run of security_tests.run_mock_test: the shared
running_test cell as observed by the check before tick `i` (external
writers may change it at any time), the per-tick random draw, the raw
index drawn by random.choice, and the datetime.now values. -/
structure Env where
  flagRead : ℕ → Bool
  randHit : ℕ → Bool
  randPick : ℕ → ℕ
  vulnNow : ℕ → String
  now0 : String

/-- The normal-completion result dict of security_tests.run_mock_test. -/
structure Results where
  summary : Summary
  vulnerabilities : List Vulnerability
  timestamp : String
  target : String

/-- Mutable state carried through the loop: the result dict under
construction, the session cells the loop writes, and the trace of values
written to the shared progress cell. -/
structure LoopState where
  vulnerabilities : List Vulnerability
  summary_vulnerabilities_found : ℕ
  summary_risk_score : ℕ
  session_vulnerabilities_found : ℕ
  session_progress : ℚ
  progressWrites : List ℚ

/-- `total_steps = 100` in run_mock_test. -/
def total_steps : ℕ := 100

/-- The `for i in range(total_steps)` loop of security_tests.run_mock_test,
with `fuel` remaining iterations (the run starts with `fuel = total_steps`,
`i = 0`).  Returns the final loop state together with the message of the
exception that aborted the loop, if any (the only exception source in the
body is random.choice on an empty vector list). -/
def loop (env : Env) (target : Target) (test_vectors : List TestVector) :
    ℕ → ℕ → LoopState → LoopState × Option String
  | 0, _, st => (st, none)
  | fuel + 1, i, st =>
    if env.flagRead i = false then
      (st, none)
    else
      let p : ℚ := ((i : ℚ) + 1) / (total_steps : ℚ)
      let st1 : LoopState :=
        { st with session_progress := p, progressWrites := st.progressWrites ++ [p] }
      if env.randHit i then
        match random_choice test_vectors (env.randPick i) with
        | .error e => (st1, some e)
        | .ok vector =>
          let weight := severity_weight vector.severity
          let vulnerability : Vulnerability :=
            { id := "VULN-" ++ toString (st1.vulnerabilities.length + 1),
              test_vector := vector.id,
              test_name := vector.name,
              severity := vector.severity,
              details := "Mock vulnerability from " ++ target.name ++ " using " ++ vector.name ++ ".",
              timestamp := env.vulnNow i }
          loop env target test_vectors fuel (i + 1)
            { st1 with
              vulnerabilities := st1.vulnerabilities ++ [vulnerability],
              session_vulnerabilities_found := st1.session_vulnerabilities_found + 1,
              summary_vulnerabilities_found := st1.summary_vulnerabilities_found + 1,
              summary_risk_score := st1.summary_risk_score + weight }
      else
        loop env target test_vectors fuel (i + 1) st1

/-- The value run_mock_test returns: the results dict on normal or
cancelled exit, or the error dict built in the except branch
(security_tests variant: only `error` and `error_message` keys). -/
inductive RetVal where
  | ok (r : Results) : RetVal
  | err (error_message : String) : RetVal

/-- Observable outcome of one run: the returned value, the session cells
after the finally block, the error-message write if the except branch ran,
the full trace of progress writes, and whether an exception was raised. -/
structure Outcome where
  ret : RetVal
  session_running_test : Bool
  session_progress : ℚ
  session_vulnerabilities_found : ℕ
  error_message_write : Option String
  progressWrites : List ℚ
  raised : Bool

/-- State after the initial session writes (progress = 0 is the first
write to the shared progress cell) and the empty results dict. -/
def init_state : LoopState :=
  { vulnerabilities := [], summary_vulnerabilities_found := 0, summary_risk_score := 0,
    session_vulnerabilities_found := 0, session_progress := 0, progressWrites := [0] }

/-- security_tests.run_mock_test.  The initial writes set progress to 0,
vulnerabilities_found to 0 and running_test to true; the loop then runs;
on normal exit the summary's total_tests is set to `len(test_vectors) * 10`
and the results dict is returned; an exception is converted to the error
dict; the finally block always resets running_test to false. -/
def run_mock_test (env : Env) (target : Target) (test_vectors : List TestVector) : Outcome :=
  match loop env target test_vectors total_steps 0 init_state with
  | (st, none) =>
    let results : Results :=
      { summary :=
          { total_tests := test_vectors.length * 10,
            vulnerabilities_found := st.summary_vulnerabilities_found,
            risk_score := st.summary_risk_score },
        vulnerabilities := st.vulnerabilities,
        timestamp := env.now0,
        target := target.name }
    { ret := .ok results,
      session_running_test := false,
      session_progress := st.session_progress,
      session_vulnerabilities_found := st.session_vulnerabilities_found,
      error_message_write := none,
      progressWrites := st.progressWrites,
      raised := false }
  | (st, some e) =>
    { ret := .err e,
      session_running_test := false,
      session_progress := st.session_progress,
      session_vulnerabilities_found := st.session_vulnerabilities_found,
      error_message_write := some ("Test execution failed: " ++ e),
      progressWrites := st.progressWrites,
      raised := true }

/-- Dict shape of a vulnerability record. -/
def vuln_to_val (v : Vulnerability) : Val :=
  .obj [ ("id", .str v.id), ("test_vector", .str v.test_vector),
         ("test_name", .str v.test_name), ("severity", .str v.severity),
         ("details", .str v.details), ("timestamp", .str v.timestamp) ]

/-- Dict shape of the value run_mock_test returns, key order as created in
the source. -/
def ret_to_val : RetVal → Val
  | .ok r =>
    .obj [ ("summary", .obj
             [ ("total_tests", .num r.summary.total_tests),
               ("vulnerabilities_found", .num r.summary.vulnerabilities_found),
               ("risk_score", .num r.summary.risk_score) ]),
           ("vulnerabilities", .list (r.vulnerabilities.map vuln_to_val)),
           ("timestamp", .str r.timestamp),
           ("target", .str r.target) ]
  | .err m =>
    .obj [ ("error", .bool true), ("error_message", .str m) ]

end SecurityTests

namespace Guared

/-- Oracles for one run of the guared.py variant of run_mock_test; as in
the security_tests variant, plus the datetime.now and traceback.format_exc
values used by its richer error dict. -/
structure Env where
  flagRead : ℕ → Bool
  randHit : ℕ → Bool
  randPick : ℕ → ℕ
  vulnNow : ℕ → String
  nowDone : String
  nowErr : String
  tbStr : String

/-- The normal-completion result dict of guared.run_mock_test; it also
carries a `test_details` dict (created empty and never filled). -/
structure Results where
  summary : Summary
  vulnerabilities : List Vulnerability
  test_details : Val
  timestamp : String
  target : String

/-- Loop state for guared.run_mock_test (same cells as the
security_tests variant). -/
structure LoopState where
  vulnerabilities : List Vulnerability
  summary_vulnerabilities_found : ℕ
  summary_risk_score : ℕ
  session_vulnerabilities_found : ℕ
  session_progress : ℚ
  progressWrites : List ℚ

/-- `total_steps = 100` in guared.run_mock_test. -/
def total_steps : ℕ := 100

/-- The `for i in range(total_steps)` loop of guared.run_mock_test
(identical control flow to the security_tests variant; only the details
string differs). -/
def loop (env : Env) (target : Target) (test_vectors : List TestVector) :
    ℕ → ℕ → LoopState → LoopState × Option String
  | 0, _, st => (st, none)
  | fuel + 1, i, st =>
    if env.flagRead i = false then
      (st, none)
    else
      let p : ℚ := ((i : ℚ) + 1) / (total_steps : ℚ)
      let st1 : LoopState :=
        { st with session_progress := p, progressWrites := st.progressWrites ++ [p] }
      if env.randHit i then
        match random_choice test_vectors (env.randPick i) with
        | .error e => (st1, some e)
        | .ok vector =>
          let weight := severity_weight vector.severity
          let vulnerability : Vulnerability :=
            { id := "VULN-" ++ toString (st1.vulnerabilities.length + 1),
              test_vector := vector.id,
              test_name := vector.name,
              severity := vector.severity,
              details := "Mock vulnerability found in " ++ target.name ++ " using "
                ++ vector.name ++ " test vector.",
              timestamp := env.vulnNow i }
          loop env target test_vectors fuel (i + 1)
            { st1 with
              vulnerabilities := st1.vulnerabilities ++ [vulnerability],
              session_vulnerabilities_found := st1.session_vulnerabilities_found + 1,
              summary_vulnerabilities_found := st1.summary_vulnerabilities_found + 1,
              summary_risk_score := st1.summary_risk_score + weight }
      else
        loop env target test_vectors fuel (i + 1) st1

/-- Return value of guared.run_mock_test: its error dict has `error`,
`error_message`, `traceback` and `timestamp` keys. -/
inductive RetVal where
  | ok (r : Results) : RetVal
  | err (error_message : String) (tb : String) (timestamp : String) : RetVal

/-- Observable outcome of one guared.run_mock_test run; this variant also
writes the finished results dict into session test_results on success. -/
structure Outcome where
  ret : RetVal
  session_running_test : Bool
  session_progress : ℚ
  session_vulnerabilities_found : ℕ
  error_message_write : Option String
  test_results_write : Option Results
  progressWrites : List ℚ
  raised : Bool

/-- State after the initial session writes and the empty results dict
(guared variant). -/
def init_state : LoopState :=
  { vulnerabilities := [], summary_vulnerabilities_found := 0, summary_risk_score := 0,
    session_vulnerabilities_found := 0, session_progress := 0, progressWrites := [0] }

/-- guared.run_mock_test: like the security_tests variant, but the
timestamp and target keys are added to the results dict after the loop,
the finished dict is stored in session test_results, and the error dict
carries traceback and timestamp fields. -/
def run_mock_test (env : Env) (target : Target) (test_vectors : List TestVector) : Outcome :=
  match loop env target test_vectors total_steps 0 init_state with
  | (st, none) =>
    let results : Results :=
      { summary :=
          { total_tests := test_vectors.length * 10,
            vulnerabilities_found := st.summary_vulnerabilities_found,
            risk_score := st.summary_risk_score },
        vulnerabilities := st.vulnerabilities,
        test_details := .obj [],
        timestamp := env.nowDone,
        target := target.name }
    { ret := .ok results,
      session_running_test := false,
      session_progress := st.session_progress,
      session_vulnerabilities_found := st.session_vulnerabilities_found,
      error_message_write := none,
      test_results_write := some results,
      progressWrites := st.progressWrites,
      raised := false }
  | (st, some e) =>
    { ret := .err e env.tbStr env.nowErr,
      session_running_test := false,
      session_progress := st.session_progress,
      session_vulnerabilities_found := st.session_vulnerabilities_found,
      error_message_write := some ("Test execution failed: " ++ e),
      test_results_write := none,
      progressWrites := st.progressWrites,
      raised := true }

/-- Dict shape of the value guared.run_mock_test returns, key order as
created in the source (summary, vulnerabilities, test_details at dict
creation; timestamp and target appended after the loop). -/
def ret_to_val : RetVal → Val
  | .ok r =>
    .obj [ ("summary", .obj
             [ ("total_tests", .num r.summary.total_tests),
               ("vulnerabilities_found", .num r.summary.vulnerabilities_found),
               ("risk_score", .num r.summary.risk_score) ]),
           ("vulnerabilities", .list (r.vulnerabilities.map SecurityTests.vuln_to_val)),
           ("test_details", r.test_details),
           ("timestamp", .str r.timestamp),
           ("target", .str r.target) ]
  | .err m tb ts =>
    .obj [ ("error", .bool true), ("error_message", .str m),
           ("traceback", .str tb), ("timestamp", .str ts) ]

end Guared

/-! Session-state model (session_state.py).

The session dict is an insertion-ordered association list; setdefault
inserts at the end when the key is absent and leaves the dict unchanged
otherwise. -/

/-- The session-state dict. -/
abbrev SessionState := List (String × Val)

/-- Python dict.setdefault restricted to its effect on the mapping. -/
def setdefault (s : SessionState) (k : String) (v : Val) : SessionState :=
  match s.lookup k with
  | some _ => s
  | none => s ++ [(k, v)]

/-- session_state.initialize_session_state: one setdefault per key, in
source order. -/
def initialize_session_state (s : SessionState) : SessionState :=
  let s := setdefault s "targets" (.list [])
  let s := setdefault s "test_results" (.obj [])
  let s := setdefault s "running_test" (.bool false)
  let s := setdefault s "progress" (.num 0)
  let s := setdefault s "vulnerabilities_found" (.num 0)
  let s := setdefault s "current_theme" (.str "dark")
  let s := setdefault s "current_page" (.str "Dashboard")
  let s := setdefault s "active_threads" (.list [])
  let s := setdefault s "error_message" .null
  let s := setdefault s "bias_results" (.obj [])
  let s := setdefault s "show_bias_results" (.bool false)
  let s := setdefault s "carbon_tracking_active" (.bool false)
  let s := setdefault s "carbon_measurements" (.list [])
  let s := setdefault s "VALIDATION_STRICTNESS" (.num 2)
  let s := setdefault s "reports" (.list [])
  let s := setdefault s "insights" (.list [])
  s

/-- The key/default pairs of initialize_session_state, in call order. -/
def session_defaults : List (String × Val) :=
  [ ("targets", .list []), ("test_results", .obj []), ("running_test", .bool false),
    ("progress", .num 0), ("vulnerabilities_found", .num 0), ("current_theme", .str "dark"),
    ("current_page", .str "Dashboard"), ("active_threads", .list []), ("error_message", .null),
    ("bias_results", .obj []), ("show_bias_results", .bool false),
    ("carbon_tracking_active", .bool false), ("carbon_measurements", .list []),
    ("VALIDATION_STRICTNESS", .num 2), ("reports", .list []), ("insights", .list []) ]

/-! Executor cleanup model (session_state.cleanup_threads).

The tracked handles are concurrent.futures.Future objects (appended by
start_security_test / submit_test); the Future API offers done(),
cancelled(), running() and so on but has no is_alive method, so the
attribute access in the list comprehension raises AttributeError. -/

/-- A concurrent.futures.Future handle; `done` records whether the task
has finished (by success, failure, or cancellation). -/
structure Future where
  done : Bool

/-- Attribute access `future.is_alive()`: concurrent.futures.Future has
no such attribute, so this always raises. -/
def future_is_alive (_f : Future) : Except String Bool :=
  .error "AttributeError: Future object has no attribute is_alive"

/-- The list comprehension `[thr for thr in active if thr.is_alive()]`,
evaluated left to right; the first attribute access aborts it. -/
def filter_alive : List Future → Except String (List Future)
  | [] => .ok []
  | f :: fs =>
    match future_is_alive f with
    | .error e => .error e
    | .ok b =>
      match filter_alive fs with
      | .error e => .error e
      | .ok rest => .ok (if b then f :: rest else rest)

/-- The session slice cleanup_threads touches. -/
structure ThreadSession where
  active_threads : List Future

/-- session_state.cleanup_threads: reassigns active_threads to the
filtered list; any exception is caught and logged, leaving the session
unchanged. -/
def cleanup_threads (s : ThreadSession) : ThreadSession :=
  match filter_alive s.active_threads with
  | .ok l => { active_threads := l }
  | .error _ => s

/-! DOI validation model (guared.py). -/

/-- A Python argument as passed to is_valid_doi_format: None, a string,
or a value of any other type. -/
inductive PyArg where
  | pyNone : PyArg
  | pyStr (s : String) : PyArg
  | pyOther : PyArg

/-- Regex \d: an ASCII digit. -/
def is_digit (c : Char) : Bool :=
  decide ('0' ≤ c) && decide (c ≤ '9')

/-- The character class [-._;()/:A-Z0-9] under re.IGNORECASE (so a-z is
included as well). -/
def in_doi_class (c : Char) : Bool :=
  decide (c = '-') || decide (c = '.') || decide (c = '_') || decide (c = ';') ||
  decide (c = '(') || decide (c = ')') || decide (c = '/') || decide (c = ':') ||
  (decide ('A' ≤ c) && decide (c ≤ 'Z')) || (decide ('a' ≤ c) && decide (c ≤ 'z')) ||
  is_digit c

/-- Match of the tail regex [-._;()/:A-Z0-9]+$ against the remaining
characters, with Python re semantics for $: it matches at the end of the
string or just before one trailing newline.  Since the class excludes the
newline, this holds exactly when, after stripping one trailing newline,
a non-empty all-class run remains. -/
def doi_tail_match (cs : List Char) : Bool :=
  let core := if cs.getLast? = some '\n' then cs.dropLast else cs
  decide (core ≠ []) && core.all in_doi_class

/-- Match of \d{4,9}/[-._;()/:A-Z0-9]+$ against the remaining characters:
the regex engine tries digit-run lengths 4 through 9 (backtracking), each
followed by a literal slash and the tail. -/
def doi_digits_slash (cs : List Char) : Bool :=
  (List.range 6).any fun j =>
    let k := j + 4
    decide (k ≤ cs.length) && (cs.take k).all is_digit &&
      match cs.drop k with
      | c :: rest => decide (c = '/') && doi_tail_match rest
      | [] => false

/-- re.match of the pattern ^10.\d{4,9}/[-._;()/:A-Z0-9]+$ with
re.IGNORECASE: literal "10", then any character except newline (the
unescaped dot), then the digit run, slash and tail. -/
def doi_regex_match (s : String) : Bool :=
  match s.data with
  | c1 :: c0 :: c :: rest =>
    decide (c1 = '1') && decide (c0 = '0') && decide (c ≠ '\n') && doi_digits_slash rest
  | _ => false

/-- guared.is_valid_doi_format: false for None, false for non-strings,
false for the empty string (falsy), otherwise the regex match. -/
def is_valid_doi_format (doi : PyArg) : Bool :=
  match doi with
  | .pyStr s => if s = "" then false else doi_regex_match s
  | _ => false

/-- guared.retry_request reduced to its observable behaviour for a HEAD
request: up to three attempts, each issuing one request; `respond a`
tells whether attempt `a` comes back HTTP 200.  Returns the response (as
an Option) and the number of requests issued. -/
def retry_request (respond : ℕ → Bool) : Option Unit × ℕ :=
  if respond 0 then (some (), 1)
  else if respond 1 then (some (), 2)
  else if respond 2 then (some (), 3)
  else (none, 3)

/-- guared.validate_doi: format check first; only on a well-formed DOI is
the resolution request issued.  Returns the boolean result and the number
of network requests made. -/
def validate_doi (respond : ℕ → Bool) (doi : PyArg) : Bool × ℕ :=
  if is_valid_doi_format doi = false then (false, 0)
  else
    let r := retry_request respond
    (r.1.isSome, r.2)

/-- Modelled from the spec: declarative reading of the DOI pattern
^10.\d{4,9}/[-._;()/:A-Z0-9]+$ (case-insensitive, Python re.match
semantics) as a structural decomposition of the string: "10", one
non-newline character, four to nine digits, a slash, a non-empty run of
class characters, and optionally one final newline. -/
def SpecDoiMatch (s : String) : Prop :=
  ∃ (c : Char) (ds tl nl : List Char),
    s.data = '1' :: '0' :: c :: (ds ++ '/' :: (tl ++ nl)) ∧
    c ≠ '\n' ∧
    4 ≤ ds.length ∧ ds.length ≤ 9 ∧ (∀ d ∈ ds, is_digit d = true) ∧
    tl ≠ [] ∧ (∀ a ∈ tl, in_doi_class a = true) ∧
    (nl = [] ∨ nl = ['\n'])

/-! Analysis definitions and concrete runs used by the theorems below. -/

/-- Number of loop iterations run_mock_test executes when no exception
occurs: the length of the maximal run of true flag reads starting at
check `i`, capped by the remaining fuel. -/
def doneTicks (flag : ℕ → Bool) : ℕ → ℕ → ℕ
  | 0, _ => 0
  | fuel + 1, i => if flag i then doneTicks flag fuel (i + 1) + 1 else 0

/-- The demo target from the spec scenarios. -/
def demo_target : Target := { name := "demo-model" }

/-- A run in which the flag stays true and no vulnerability is drawn. -/
def env_complete : SecurityTests.Env :=
  { flagRead := fun _ => true, randHit := fun _ => false, randPick := fun _ => 0,
    vulnNow := fun _ => "2026-01-01T00:00:00", now0 := "2026-01-01T00:00:30" }

/-- A run in which the flag stays true and every tick draws a
vulnerability; against an empty vector list the very first draw raises. -/
def env_hit_every_tick : SecurityTests.Env :=
  { flagRead := fun _ => true, randHit := fun _ => true, randPick := fun _ => 0,
    vulnNow := fun _ => "2026-01-01T00:00:00", now0 := "2026-01-01T00:00:30" }

/-- A run with a single vulnerability draw at tick 0 choosing the third
catalog vector (severity critical, weight 5). -/
def env_one_hit : SecurityTests.Env :=
  { flagRead := fun _ => true, randHit := fun i => decide (i = 0), randPick := fun _ => 2,
    vulnNow := fun _ => "2026-01-01T00:00:00", now0 := "2026-01-01T00:00:30" }

/-- A run cancelled externally: the flag reads false from the 51st check
(index 50) onward. -/
def env_cancel_50 : SecurityTests.Env :=
  { flagRead := fun i => decide (i < 50), randHit := fun _ => false, randPick := fun _ => 0,
    vulnNow := fun _ => "2026-01-01T00:00:00", now0 := "2026-01-01T00:00:30" }

/-- A run cancelled before the first tick: every flag read is false. -/
def env_cancel_0 : SecurityTests.Env :=
  { flagRead := fun _ => false, randHit := fun _ => false, randPick := fun _ => 0,
    vulnNow := fun _ => "2026-01-01T00:00:00", now0 := "2026-01-01T00:00:30" }

/-- Guared-variant run with a draw at every tick (raises on empty
vectors at tick 0). -/
def g_env_hit_every_tick : Guared.Env :=
  { flagRead := fun _ => true, randHit := fun _ => true, randPick := fun _ => 0,
    vulnNow := fun _ => "2026-01-01T00:00:00", nowDone := "2026-01-01T00:00:30",
    nowErr := "2026-01-01T00:00:01", tbStr := "Traceback (most recent call last)" }

/-! Association-list lemmas for the session-state model. -/

lemma lookup_append_left (s t : SessionState) (k : String) (v : Val)
    (h : s.lookup k = some v) : (s ++ t).lookup k = some v := by
  induction s with
  | nil => simp [List.lookup] at h
  | cons a s ih =>
    obtain ⟨a1, a2⟩ := a
    rw [List.lookup_cons] at h
    rw [List.cons_append, List.lookup_cons]
    cases hk : (k == a1) with
    | true => simpa [hk] using h
    | false =>
      simp only [hk] at h ⊢
      exact ih h

lemma lookup_append_absent (s : SessionState) (k : String) (v : Val)
    (h : s.lookup k = none) : (s ++ [(k, v)]).lookup k = some v := by
  induction s with
  | nil => simp [List.lookup_cons]
  | cons a s ih =>
    obtain ⟨a1, a2⟩ := a
    rw [List.lookup_cons] at h
    rw [List.cons_append, List.lookup_cons]
    cases hk : (k == a1) with
    | true => simp [hk] at h
    | false =>
      simp only [hk] at h ⊢
      exact ih h

lemma lookup_append_single_ne (s : SessionState) (k k' : String) (d : Val)
    (hne : (k == k') = false) : (s ++ [(k', d)]).lookup k = s.lookup k := by
  induction s with
  | nil => simp [List.lookup, List.lookup_cons, hne]
  | cons a s ih =>
    obtain ⟨a1, a2⟩ := a
    rw [List.cons_append, List.lookup_cons, List.lookup_cons]
    cases hk : (k == a1) with
    | true => rfl
    | false => simpa using ih

lemma lookup_setdefault_of_some (s : SessionState) (k k' : String) (v d : Val)
    (h : s.lookup k = some v) : (setdefault s k' d).lookup k = some v := by
  unfold setdefault
  split
  · exact h
  · exact lookup_append_left _ _ _ _ h

lemma lookup_setdefault_ne (s : SessionState) (k k' : String) (d : Val)
    (hne : (k == k') = false) : (setdefault s k' d).lookup k = s.lookup k := by
  unfold setdefault
  split
  · rfl
  · exact lookup_append_single_ne _ _ _ _ hne

/-- The setdefault chain of initialize_session_state is the fold of the
enumerated defaults list. -/
lemma initialize_eq_foldl (s : SessionState) :
    initialize_session_state s
      = session_defaults.foldl (fun acc kv => setdefault acc kv.1 kv.2) s := by
  simp only [initialize_session_state, session_defaults, List.foldl_cons, List.foldl_nil]

lemma foldl_setdefault_preserves (l : List (String × Val)) (s : SessionState)
    (k : String) (v : Val) (h : s.lookup k = some v) :
    (l.foldl (fun acc kv => setdefault acc kv.1 kv.2) s).lookup k = some v := by
  induction l generalizing s with
  | nil => exact h
  | cons kv l ih => exact ih _ (lookup_setdefault_of_some _ _ _ _ _ h)

lemma foldl_setdefault_inserts (l : List (String × Val)) (s : SessionState)
    (k : String) (d : Val) (hmem : (k, d) ∈ l) (hnd : (l.map Prod.fst).Nodup)
    (h : s.lookup k = none) :
    (l.foldl (fun acc kv => setdefault acc kv.1 kv.2) s).lookup k = some d := by
  induction l generalizing s with
  | nil => cases hmem
  | cons kv l ih =>
    rw [List.map_cons, List.nodup_cons] at hnd
    rcases List.mem_cons.mp hmem with heq | hmem2
    · subst heq
      have h1 : (setdefault s k d).lookup k = some d := by
        unfold setdefault
        rw [h]
        exact lookup_append_absent s k d h
      rw [List.foldl_cons]
      exact foldl_setdefault_preserves _ _ _ _ h1
    · have hk1 : (k == kv.1) = false := by
        rw [beq_eq_false_iff_ne]
        intro he
        exact hnd.1 (he ▸ (List.mem_map.mpr ⟨(k, d), hmem2, rfl⟩))
      have h2 : (setdefault s kv.1 kv.2).lookup k = none := by
        rw [lookup_setdefault_ne _ _ _ _ hk1]
        exact h
      rw [List.foldl_cons]
      exact ih _ hmem2 hnd.2 h2

/-- C8: initialize_session_state is idempotent with respect to present
keys: a key already present keeps its value (in particular running_test
left true when set externally), and every absent key from the enumerated
defaults receives its default. -/
theorem C8_initialize_session_state_idempotent :
    (∀ (s : SessionState) (k : String) (v : Val),
        s.lookup k = some v → (initialize_session_state s).lookup k = some v)
  ∧ (∀ (s : SessionState) (k : String) (d : Val),
        (k, d) ∈ session_defaults → s.lookup k = none →
          (initialize_session_state s).lookup k = some d) := by
  constructor
  · intro s k v h
    rw [initialize_eq_foldl]
    exact foldl_setdefault_preserves _ _ _ _ h
  · intro s k d hm h
    rw [initialize_eq_foldl]
    exact foldl_setdefault_inserts _ _ _ _ hm (by decide) h

/-- C8 witness: with running_test set true externally, re-initializing
leaves it true, and the absent progress key receives its default 0. -/
theorem C8_initialize_session_state_idempotent_witness :
    (initialize_session_state [("running_test", Val.bool true)]).lookup "running_test"
        = some (Val.bool true)
  ∧ (initialize_session_state [("running_test", Val.bool true)]).lookup "progress"
        = some (Val.num 0) := by
  constructor
  · exact C8_initialize_session_state_idempotent.1 _ _ _ (by rfl)
  · exact C8_initialize_session_state_idempotent.2 _ _ _ (by simp [session_defaults]) (by rfl)

/-- C3: in every run of run_mock_test — normal completion, cancellation
or exception — the finally block leaves the shared running_test flag
false on return; this holds for both the security_tests and the guared
variant. -/
theorem C3_running_flag_cleared_on_return :
    (∀ (env : SecurityTests.Env) (t : Target) (v : List TestVector),
        (SecurityTests.run_mock_test env t v).session_running_test = false)
  ∧ (∀ (env : Guared.Env) (t : Target) (v : List TestVector),
        (Guared.run_mock_test env t v).session_running_test = false) := by
  constructor
  · intro env t v
    simp only [SecurityTests.run_mock_test]
    split <;> rfl
  · intro env t v
    simp only [Guared.run_mock_test]
    split <;> rfl

/-- C5 evidence: the tracked handles are concurrent.futures.Future
objects, which have no is_alive attribute, so the filter inside
cleanup_threads raises AttributeError; the exception is swallowed and a
finished handle (done = true) is not removed from the list, contrary to
the claim that cleanup prunes exactly the finished handles. -/
theorem C5_cleanup_threads_keeps_finished_handle :
    future_is_alive { done := true }
        = Except.error "AttributeError: Future object has no attribute is_alive"
  ∧ (cleanup_threads { active_threads := [{ done := true }] }).active_threads
        = [{ done := true }]
  ∧ (cleanup_threads { active_threads := [{ done := true }, { done := false }] }).active_threads
        = [{ done := true }, { done := false }] := by
  exact ⟨rfl, rfl, rfl⟩

/-! Properties of doneTicks. -/

lemma doneTicks_le (flag : ℕ → Bool) : ∀ fuel i, doneTicks flag fuel i ≤ fuel := by
  intro fuel
  induction fuel with
  | zero => intro i; exact Nat.le_refl 0
  | succ fuel ih =>
    intro i
    rw [doneTicks]
    split
    · exact Nat.succ_le_succ (ih (i + 1))
    · exact Nat.zero_le _

lemma doneTicks_eq_iff (flag : ℕ → Bool) :
    ∀ fuel i, doneTicks flag fuel i = fuel ↔ ∀ j, i ≤ j → j < i + fuel → flag j = true := by
  intro fuel
  induction fuel with
  | zero =>
    intro i
    constructor
    · intro _ j h1 h2
      exact absurd h2 (by omega)
    · intro _
      rfl
  | succ fuel ih =>
    intro i
    rw [doneTicks]
    by_cases hf : flag i = true
    · rw [if_pos hf]
      constructor
      · intro h j h1 h2
        rcases eq_or_lt_of_le h1 with rfl | h1b
        · exact hf
        · exact (ih (i + 1)).mp (by omega) j (by omega) (by omega)
      · intro hall
        have h2 : doneTicks flag fuel (i + 1) = fuel :=
          (ih (i + 1)).mpr (fun j hj1 hj2 => hall j (by omega) (by omega))
        omega
    · rw [if_neg hf]
      constructor
      · intro h
        exact absurd h (by omega)
      · intro hall
        exact absurd (hall i (Nat.le_refl i) (by omega)) hf

namespace SecurityTests

/-! Structural lemmas about the run_mock_test loop. -/

lemma run_writes_eq (env : Env) (t : Target) (v : List TestVector) :
    (run_mock_test env t v).progressWrites
      = (loop env t v total_steps 0 init_state).1.progressWrites := by
  cases hl : loop env t v total_steps 0 init_state with
  | mk st e => cases e <;> simp [run_mock_test, hl]

lemma run_raised_eq (env : Env) (t : Target) (v : List TestVector) :
    (run_mock_test env t v).raised
      = (loop env t v total_steps 0 init_state).2.isSome := by
  cases hl : loop env t v total_steps 0 init_state with
  | mk st e => cases e <;> simp [run_mock_test, hl]

lemma run_raised_err (env : Env) (t : Target) (v : List TestVector)
    (h : (run_mock_test env t v).raised = true) :
    ∃ m, (run_mock_test env t v).ret = .err m
      ∧ (run_mock_test env t v).error_message_write
          = some ("Test execution failed: " ++ m) := by
  cases hl : loop env t v total_steps 0 init_state with
  | mk st e =>
    cases e with
    | none => rw [run_raised_eq, hl] at h; simp at h
    | some m => exact ⟨m, by simp [run_mock_test, hl], by simp [run_mock_test, hl]⟩

lemma run_not_raised_ok (env : Env) (t : Target) (v : List TestVector)
    (h : (run_mock_test env t v).raised = false) :
    ∃ st : LoopState,
      loop env t v total_steps 0 init_state = (st, none)
      ∧ (run_mock_test env t v).ret = .ok
          { summary :=
              { total_tests := v.length * 10,
                vulnerabilities_found := st.summary_vulnerabilities_found,
                risk_score := st.summary_risk_score },
            vulnerabilities := st.vulnerabilities,
            timestamp := env.now0,
            target := t.name } := by
  cases hl : loop env t v total_steps 0 init_state with
  | mk st e =>
    cases e with
    | none => exact ⟨st, rfl, by simp [run_mock_test, hl]⟩
    | some m => rw [run_raised_eq, hl] at h; simp at h

lemma loop_writes_mem (env : Env) (t : Target) (v : List TestVector) :
    ∀ (fuel i : ℕ) (st : LoopState) (q : ℚ),
      q ∈ (loop env t v fuel i st).1.progressWrites →
      q ∈ st.progressWrites ∨
        ∃ j, i ≤ j ∧ env.flagRead j = true ∧ q = ((j : ℚ) + 1) / (total_steps : ℚ) := by
  intro fuel
  induction fuel with
  | zero =>
    intro i st q hq
    exact Or.inl hq
  | succ fuel ih =>
    intro i st q hq
    by_cases hf : env.flagRead i = false
    · rw [loop, if_pos hf] at hq
      exact Or.inl hq
    · have hft : env.flagRead i = true := by
        cases hfe : env.flagRead i
        · exact absurd hfe hf
        · rfl
      rw [loop, if_neg hf] at hq
      by_cases hh : env.randHit i = true
      · rw [if_pos hh] at hq
        cases hc : random_choice v (env.randPick i) with
        | error e =>
          rw [hc] at hq
          rcases List.mem_append.mp hq with h1 | h2
          · exact Or.inl h1
          · exact Or.inr ⟨i, Nat.le_refl i, hft, by simpa using h2⟩
        | ok vec =>
          rw [hc] at hq
          rcases ih (i + 1) _ q hq with h1 | ⟨j, hj1, hj2, hj3⟩
          · rcases List.mem_append.mp h1 with ha | hb
            · exact Or.inl ha
            · exact Or.inr ⟨i, Nat.le_refl i, hft, by simpa using hb⟩
          · exact Or.inr ⟨j, by omega, hj2, hj3⟩
      · rw [if_neg hh] at hq
        rcases ih (i + 1) _ q hq with h1 | ⟨j, hj1, hj2, hj3⟩
        · rcases List.mem_append.mp h1 with ha | hb
          · exact Or.inl ha
          · exact Or.inr ⟨i, Nat.le_refl i, hft, by simpa using hb⟩
        · exact Or.inr ⟨j, by omega, hj2, hj3⟩

lemma loop_writes_length (env : Env) (t : Target) (v : List TestVector) (k : ℕ)
    (hk : ∀ j, k ≤ j → env.flagRead j = false) :
    ∀ (fuel i : ℕ) (st : LoopState),
      (loop env t v fuel i st).1.progressWrites.length
        ≤ st.progressWrites.length + (k - i) := by
  intro fuel
  induction fuel with
  | zero =>
    intro i st
    exact Nat.le_add_right _ _
  | succ fuel ih =>
    intro i st
    by_cases hf : env.flagRead i = false
    · rw [loop, if_pos hf]
      exact Nat.le_add_right _ _
    · have hik : i < k := by
        by_contra hik
        exact hf (hk i (by omega))
      rw [loop, if_neg hf]
      by_cases hh : env.randHit i = true
      · rw [if_pos hh]
        cases hc : random_choice v (env.randPick i) with
        | error e =>
          simp only [List.length_append, List.length_singleton]
          omega
        | ok vec =>
          refine Nat.le_trans (ih (i + 1) _) ?_
          simp only [List.length_append, List.length_singleton]
          omega
      · rw [if_neg hh]
        refine Nat.le_trans (ih (i + 1) _) ?_
        simp only [List.length_append, List.length_singleton]
        omega

lemma loop_writes_chain (env : Env) (t : Target) (v : List TestVector) :
    ∀ (fuel i : ℕ) (st : LoopState),
      List.Chain' (· ≤ ·) st.progressWrites →
      (∀ q ∈ st.progressWrites, q ≤ (i : ℚ) / (total_steps : ℚ)) →
      List.Chain' (· ≤ ·) (loop env t v fuel i st).1.progressWrites := by
  intro fuel
  induction fuel with
  | zero =>
    intro i st hc _
    exact hc
  | succ fuel ih =>
    intro i st hc hb
    by_cases hf : env.flagRead i = false
    · rw [loop, if_pos hf]
      exact hc
    · rw [loop, if_neg hf]
      have hts : (0 : ℚ) < ((total_steps : ℕ) : ℚ) := by norm_num [total_steps]
      have hmono : (i : ℚ) / (total_steps : ℚ) ≤ ((i : ℚ) + 1) / (total_steps : ℚ) := by
        rw [div_le_div_iff_of_pos_right hts]
        linarith
      have hc1 : List.Chain' (· ≤ ·)
          (st.progressWrites ++ [((i : ℚ) + 1) / (total_steps : ℚ)]) := by
        rw [List.chain'_append]
        refine ⟨hc, List.chain'_singleton _, ?_⟩
        intro x hx y hy
        have hxm : x ∈ st.progressWrites := by
          rcases List.mem_getLast?_eq_getLast hx with ⟨hne, hxe⟩
          exact hxe ▸ List.getLast_mem hne
        have hy1 : ((i : ℚ) + 1) / (total_steps : ℚ) = y := by simpa using hy
        rw [← hy1]
        exact le_trans (hb x hxm) hmono
      have hb1 : ∀ q ∈ st.progressWrites ++ [((i : ℚ) + 1) / (total_steps : ℚ)],
          q ≤ (((i + 1 : ℕ) : ℚ)) / (total_steps : ℚ) := by
        intro q hq
        have hcast : ((i + 1 : ℕ) : ℚ) = (i : ℚ) + 1 := by push_cast; ring
        rw [hcast]
        rcases List.mem_append.mp hq with h1 | h2
        · exact le_trans (hb q h1) hmono
        · rw [List.mem_singleton.mp h2]
      by_cases hh : env.randHit i = true
      · rw [if_pos hh]
        cases hc2 : random_choice v (env.randPick i) with
        | error e => exact hc1
        | ok vec => exact ih (i + 1) _ hc1 hb1
      · rw [if_neg hh]
        exact ih (i + 1) _ hc1 hb1

lemma loop_writes_getLast (env : Env) (t : Target) (v : List TestVector) :
    ∀ (fuel i : ℕ) (st : LoopState), (loop env t v fuel i st).2 = none →
      ((loop env t v fuel i st).1.progressWrites.getLast? = st.progressWrites.getLast?
          ∧ doneTicks env.flagRead fuel i = 0)
      ∨ ((loop env t v fuel i st).1.progressWrites.getLast?
            = some (((i : ℚ) + (doneTicks env.flagRead fuel i : ℚ)) / (total_steps : ℚ))
          ∧ 0 < doneTicks env.flagRead fuel i) := by
  intro fuel
  induction fuel with
  | zero =>
    intro i st _
    exact Or.inl ⟨rfl, rfl⟩
  | succ fuel ih =>
    intro i st hnone
    by_cases hf : env.flagRead i = false
    · left
      constructor
      · rw [loop, if_pos hf]
      · rw [doneTicks, if_neg (by simp [hf])]
    · have hft : env.flagRead i = true := by
        cases hfe : env.flagRead i
        · exact absurd hfe hf
        · rfl
      have hd : doneTicks env.flagRead (fuel + 1) i
          = doneTicks env.flagRead fuel (i + 1) + 1 := by
        rw [doneTicks, if_pos hft]
      rw [loop, if_neg hf] at hnone ⊢
      by_cases hh : env.randHit i = true
      · rw [if_pos hh] at hnone ⊢
        cases hc : random_choice v (env.randPick i) with
        | error e =>
          rw [hc] at hnone
          simp at hnone
        | ok vec =>
          rw [hc] at hnone
          dsimp only at hnone ⊢
          rcases ih (i + 1) _ hnone with ⟨hl, hd0⟩ | ⟨hl, hdp⟩
          · refine Or.inr ⟨?_, by omega⟩
            rw [hl, hd, hd0]
            dsimp only
            rw [List.getLast?_concat]
            congr 1
          · refine Or.inr ⟨?_, by omega⟩
            rw [hl, hd]
            congr 1
            push_cast
            ring
      · rw [if_neg hh] at hnone ⊢
        rcases ih (i + 1) _ hnone with ⟨hl, hd0⟩ | ⟨hl, hdp⟩
        · refine Or.inr ⟨?_, by omega⟩
          rw [hl, hd, hd0]
          dsimp only
          rw [List.getLast?_concat]
          congr 1
        · refine Or.inr ⟨?_, by omega⟩
          rw [hl, hd]
          congr 1
          push_cast
          ring

lemma loop_risk (env : Env) (t : Target) (v : List TestVector) :
    ∀ (fuel i : ℕ) (st : LoopState),
      st.summary_risk_score
          = (st.vulnerabilities.map (fun u => severity_weight u.severity)).sum →
      (loop env t v fuel i st).1.summary_risk_score
        = ((loop env t v fuel i st).1.vulnerabilities.map
            (fun u => severity_weight u.severity)).sum := by
  intro fuel
  induction fuel with
  | zero =>
    intro i st h
    exact h
  | succ fuel ih =>
    intro i st h
    by_cases hf : env.flagRead i = false
    · rw [loop, if_pos hf]
      exact h
    · rw [loop, if_neg hf]
      by_cases hh : env.randHit i = true
      · rw [if_pos hh]
        cases hc : random_choice v (env.randPick i) with
        | error e =>
          exact h
        | ok vec =>
          refine ih (i + 1) _ ?_
          dsimp only
          simp only [List.map_append, List.sum_append]
          rw [← h]
          simp
      · rw [if_neg hh]
        exact ih (i + 1) _ h

lemma loop_no_error (env : Env) (t : Target) {v : List TestVector} (hv : v ≠ []) :
    ∀ (fuel i : ℕ) (st : LoopState), (loop env t v fuel i st).2 = none := by
  intro fuel
  induction fuel with
  | zero =>
    intro i st
    rfl
  | succ fuel ih =>
    intro i st
    by_cases hf : env.flagRead i = false
    · rw [loop, if_pos hf]
    · rw [loop, if_neg hf]
      by_cases hh : env.randHit i = true
      · rw [if_pos hh]
        cases v with
        | nil => exact absurd rfl hv
        | cons x xs =>
          rw [random_choice]
          exact ih (i + 1) _
      · rw [if_neg hh]
        exact ih (i + 1) _

end SecurityTests

namespace Guared

lemma guared_run_raised_eq (env : Env) (t : Target) (v : List TestVector) :
    (run_mock_test env t v).raised
      = (loop env t v total_steps 0 init_state).2.isSome := by
  cases hl : loop env t v total_steps 0 init_state with
  | mk st e => cases e <;> simp [run_mock_test, hl]

lemma guared_run_raised_err (env : Env) (t : Target) (v : List TestVector)
    (h : (run_mock_test env t v).raised = true) :
    ∃ m, (run_mock_test env t v).ret = .err m env.tbStr env.nowErr
      ∧ (run_mock_test env t v).error_message_write
          = some ("Test execution failed: " ++ m) := by
  cases hl : loop env t v total_steps 0 init_state with
  | mk st e =>
    cases e with
    | none => rw [guared_run_raised_eq, hl] at h; simp at h
    | some m => exact ⟨m, by simp [run_mock_test, hl], by simp [run_mock_test, hl]⟩

end Guared

/-! The claims about the assessment-task lifecycle. -/

/-- C1 (amended): in every run of security_tests.run_mock_test the
sequence of values written to the shared progress cell is monotonically
non-decreasing; and in every run that raises no exception, the final
written value equals exactly 1.0 if and only if the RunningFlag read
true at all 100 checks.  The no-exception proviso is forced by the
counterexample below: a run that raises inside the loop (a vulnerability
draw against an empty vector list) is not cancelled and still ends with
a final write strictly below 1.0. -/
theorem C1_progress_monotone_and_final_value
    (env : SecurityTests.Env) (t : Target) (v : List TestVector) :
    List.Chain' (· ≤ ·) (SecurityTests.run_mock_test env t v).progressWrites
  ∧ ((SecurityTests.run_mock_test env t v).raised = false →
      ((SecurityTests.run_mock_test env t v).progressWrites.getLast? = some 1
        ↔ ∀ i < SecurityTests.total_steps, env.flagRead i = true)) := by
  constructor
  · rw [SecurityTests.run_writes_eq]
    refine SecurityTests.loop_writes_chain env t v _ _ _ (List.chain'_singleton 0) ?_
    intro q hq
    have hq0 : q = 0 := by simpa [SecurityTests.init_state] using hq
    rw [hq0]
    positivity
  · intro hraised
    rw [SecurityTests.run_raised_eq] at hraised
    have hnone : (SecurityTests.loop env t v SecurityTests.total_steps 0
        SecurityTests.init_state).2 = none := by
      cases he : (SecurityTests.loop env t v SecurityTests.total_steps 0
          SecurityTests.init_state).2
      · rfl
      · rw [he] at hraised; simp at hraised
    rw [SecurityTests.run_writes_eq]
    rcases SecurityTests.loop_writes_getLast env t v SecurityTests.total_steps 0
        SecurityTests.init_state hnone with ⟨hl, hd⟩ | ⟨hl, hdp⟩
    · rw [hl]
      constructor
      · intro h0
        norm_num [SecurityTests.init_state] at h0
      · intro hall
        exfalso
        have h100 : doneTicks env.flagRead SecurityTests.total_steps 0
            = SecurityTests.total_steps :=
          (doneTicks_eq_iff env.flagRead SecurityTests.total_steps 0).mpr
            (fun j h1 h2 => hall j (by omega))
        rw [hd] at h100
        simp [SecurityTests.total_steps] at h100
    · rw [hl]
      have hts : ((SecurityTests.total_steps : ℕ) : ℚ) = 100 := by
        norm_num [SecurityTests.total_steps]
      constructor
      · intro h1
        have h2 : ((0 : ℚ) + (doneTicks env.flagRead SecurityTests.total_steps 0 : ℚ))
            / ((SecurityTests.total_steps : ℕ) : ℚ) = 1 := Option.some.inj h1
        rw [hts] at h2
        have h3 : (doneTicks env.flagRead SecurityTests.total_steps 0 : ℚ) = 100 := by
          field_simp at h2
          linarith
        have h4 : doneTicks env.flagRead SecurityTests.total_steps 0 = 100 := by
          exact_mod_cast h3
        intro j hj
        refine (doneTicks_eq_iff env.flagRead SecurityTests.total_steps 0).mp ?_ j
          (by omega) (by omega)
        rw [h4]
        rfl
      · intro hall
        have h4 : doneTicks env.flagRead SecurityTests.total_steps 0
            = SecurityTests.total_steps :=
          (doneTicks_eq_iff env.flagRead SecurityTests.total_steps 0).mpr
            (fun j h1 h2 => hall j (by omega))
        rw [h4, hts]
        norm_num [SecurityTests.total_steps]

/-- C1 witness: a full uncancelled, exception-free run ends with a final
progress write of exactly 1. -/
theorem C1_progress_monotone_and_final_value_witness :
    (SecurityTests.run_mock_test env_complete demo_target
        get_mock_test_vectors).progressWrites.getLast? = some 1 := by
  have h := C1_progress_monotone_and_final_value env_complete demo_target get_mock_test_vectors
  exact (h.2 (by rfl)).mpr (fun i _ => rfl)

/-- C1 counterexample: with the empty vector list (the documented
fallback of guared.get_mock_test_vectors) and a vulnerability draw at
tick 0, the loop raises at tick 0: the RunningFlag read true at every
check — the run was not cancelled — yet the final value written to the
progress cell is 1/100, not 1.0, so the biconditional of the claim fails
on this run. -/
theorem C1_counterexample_exception_run :
    (∀ i < SecurityTests.total_steps, env_hit_every_tick.flagRead i = true)
  ∧ (SecurityTests.run_mock_test env_hit_every_tick demo_target []).progressWrites.getLast?
      ≠ some 1 := by
  constructor
  · intro i _
    rfl
  · intro h
    have h0 : (SecurityTests.run_mock_test env_hit_every_tick demo_target
          []).progressWrites.getLast?
        = some ((((0 : ℕ) : ℚ) + 1) / ((SecurityTests.total_steps : ℕ) : ℚ)) := rfl
    rw [h0] at h
    have h3 := Option.some.inj h
    norm_num [SecurityTests.total_steps] at h3

/-- C2: if the RunningFlag reads false at every check from index k on
(cancellation requested during tick k, 1-indexed: the checks before
ticks k+1, k+2, ... all see false), the task performs no progress write
beyond tick k+1: every value written to the progress cell is at most
(k+1)/100, and at most k+1 writes happen in total (the initial 0 plus at
most k tick writes). -/
theorem C2_no_write_beyond_cancellation
    (env : SecurityTests.Env) (t : Target) (v : List TestVector) (k : ℕ)
    (hk : ∀ j, k ≤ j → env.flagRead j = false) :
    (∀ q ∈ (SecurityTests.run_mock_test env t v).progressWrites,
        q ≤ ((k : ℚ) + 1) / (SecurityTests.total_steps : ℚ))
  ∧ (SecurityTests.run_mock_test env t v).progressWrites.length ≤ k + 1 := by
  constructor
  · intro q hq
    rw [SecurityTests.run_writes_eq] at hq
    rcases SecurityTests.loop_writes_mem env t v _ _ _ q hq with h1 | ⟨j, hj1, hj2, hj3⟩
    · have hq0 : q = 0 := by simpa [SecurityTests.init_state] using h1
      rw [hq0]
      positivity
    · have hjk : j < k := by
        by_contra hbad
        rw [hk j (by omega)] at hj2
        exact Bool.noConfusion hj2
      rw [hj3]
      have hts : (0 : ℚ) < ((SecurityTests.total_steps : ℕ) : ℚ) := by
        norm_num [SecurityTests.total_steps]
      rw [div_le_div_iff_of_pos_right hts]
      have hjq : (j : ℚ) < (k : ℚ) := by exact_mod_cast hjk
      linarith
  · rw [SecurityTests.run_writes_eq]
    refine Nat.le_trans
      (SecurityTests.loop_writes_length env t v k hk SecurityTests.total_steps 0
        SecurityTests.init_state) ?_
    simp only [SecurityTests.init_state, List.length_singleton]
    omega

/-- C2 witness: with the flag false from the very first check, the run
performs only the initial progress write. -/
theorem C2_no_write_beyond_cancellation_witness :
    (SecurityTests.run_mock_test env_cancel_0 demo_target
        get_mock_test_vectors).progressWrites.length ≤ 0 + 1 :=
  (C2_no_write_beyond_cancellation env_cancel_0 demo_target get_mock_test_vectors 0
    (fun _ _ => rfl)).2

/-- C4 (amended): an exception raised during the loop never propagates
to the caller: run_mock_test still returns a value, an error-shaped dict
distinct from the normal result shape (it has no summary key), carrying
error = true and the captured exception message, and the session error
message is written.  The guared variant additionally stamps timestamp
and traceback keys into its error dict; the security_tests variant's
error dict carries only error and error_message (the claim's timestamp
field is absent there — see the counterexample). -/
theorem C4_error_result_shape :
    (∀ (env : SecurityTests.Env) (t : Target) (v : List TestVector),
        (SecurityTests.run_mock_test env t v).raised = true →
        ∃ m, (SecurityTests.run_mock_test env t v).ret = SecurityTests.RetVal.err m
          ∧ get_key (SecurityTests.ret_to_val (SecurityTests.RetVal.err m)) "error"
              = some (.bool true)
          ∧ get_key (SecurityTests.ret_to_val (SecurityTests.RetVal.err m)) "error_message"
              = some (.str m)
          ∧ get_key (SecurityTests.ret_to_val (SecurityTests.RetVal.err m)) "summary" = none
          ∧ (SecurityTests.run_mock_test env t v).error_message_write
              = some ("Test execution failed: " ++ m))
  ∧ (∀ (env : Guared.Env) (t : Target) (v : List TestVector),
        (Guared.run_mock_test env t v).raised = true →
        ∃ m, (Guared.run_mock_test env t v).ret
              = Guared.RetVal.err m env.tbStr env.nowErr
          ∧ get_key (Guared.ret_to_val (Guared.RetVal.err m env.tbStr env.nowErr)) "error"
              = some (.bool true)
          ∧ get_key (Guared.ret_to_val (Guared.RetVal.err m env.tbStr env.nowErr))
              "error_message" = some (.str m)
          ∧ get_key (Guared.ret_to_val (Guared.RetVal.err m env.tbStr env.nowErr))
              "timestamp" = some (.str env.nowErr)
          ∧ get_key (Guared.ret_to_val (Guared.RetVal.err m env.tbStr env.nowErr))
              "summary" = none) := by
  constructor
  · intro env t v h
    obtain ⟨m, hret, hw⟩ := SecurityTests.run_raised_err env t v h
    exact ⟨m, hret, rfl, rfl, rfl, hw⟩
  · intro env t v h
    obtain ⟨m, hret, hw⟩ := Guared.guared_run_raised_err env t v h
    exact ⟨m, hret, rfl, rfl, rfl, rfl⟩

/-- C4 witness: concrete raising runs of both variants return the error
value. -/
theorem C4_error_result_shape_witness :
    (∃ m, (SecurityTests.run_mock_test env_hit_every_tick demo_target []).ret
        = SecurityTests.RetVal.err m)
  ∧ (∃ m, (Guared.run_mock_test g_env_hit_every_tick demo_target []).ret
        = Guared.RetVal.err m g_env_hit_every_tick.tbStr g_env_hit_every_tick.nowErr) := by
  constructor
  · obtain ⟨m, hret, hw⟩ := C4_error_result_shape.1 env_hit_every_tick demo_target [] (by rfl)
    exact ⟨m, hret⟩
  · obtain ⟨m, hret, hw⟩ := C4_error_result_shape.2 g_env_hit_every_tick demo_target [] (by rfl)
    exact ⟨m, hret⟩

/-- C4 counterexample: the security_tests error dict is exactly
{error: true, error_message: str(e)}: at a concrete raising run the
returned value has no timestamp key, contradicting the claimed error
shape {error, error_message, timestamp}. -/
theorem C4_counterexample_no_timestamp :
    (SecurityTests.run_mock_test env_hit_every_tick demo_target []).raised = true
  ∧ get_key (SecurityTests.ret_to_val
        (SecurityTests.run_mock_test env_hit_every_tick demo_target []).ret) "timestamp"
      = none := ⟨rfl, rfl⟩

/-- C6: whenever run_mock_test returns a normal (non-error) result, the
summary's risk_score equals the sum over the synthesized vulnerabilities
of the severity weights low 1, medium 2, high 3, critical 5, default 1
for anything else. -/
theorem C6_risk_score_is_weight_sum
    (env : SecurityTests.Env) (t : Target) (v : List TestVector)
    (r : SecurityTests.Results)
    (h : (SecurityTests.run_mock_test env t v).ret = SecurityTests.RetVal.ok r) :
    r.summary.risk_score
      = (r.vulnerabilities.map (fun u => severity_weight u.severity)).sum := by
  cases hl : SecurityTests.loop env t v SecurityTests.total_steps 0
      SecurityTests.init_state with
  | mk st e =>
    cases e with
    | none =>
      have hrisk := SecurityTests.loop_risk env t v SecurityTests.total_steps 0
        SecurityTests.init_state (by simp [SecurityTests.init_state])
      rw [hl] at hrisk
      simp only [SecurityTests.run_mock_test, hl] at h
      injection h with h2
      rw [← h2]
      exact hrisk
    | some m =>
      simp [SecurityTests.run_mock_test, hl] at h

/-- C6 witness: a run with one draw at tick 0 picking the critical
catalog vector satisfies the weight-sum equation. -/
theorem C6_risk_score_is_weight_sum_witness :
    ∃ r, (SecurityTests.run_mock_test env_one_hit demo_target get_mock_test_vectors).ret
          = SecurityTests.RetVal.ok r
      ∧ r.summary.risk_score
          = (r.vulnerabilities.map (fun u => severity_weight u.severity)).sum := by
  obtain ⟨st, hl, hret⟩ := SecurityTests.run_not_raised_ok env_one_hit demo_target
    get_mock_test_vectors (by rfl)
  exact ⟨_, hret, C6_risk_score_is_weight_sum _ _ _ _ hret⟩

/-- C7: every run over a non-empty vector list in which the flag stays
true at all 100 checks (normal completion) returns a results dict whose
summary.total_tests equals len(vectors) * 10. -/
theorem C7_total_tests_on_completion
    (env : SecurityTests.Env) (t : Target) (v : List TestVector) (hv : v ≠ [])
    (hflag : ∀ i < SecurityTests.total_steps, env.flagRead i = true) :
    ∃ r, (SecurityTests.run_mock_test env t v).ret = SecurityTests.RetVal.ok r
      ∧ r.summary.total_tests = v.length * 10 := by
  have hnone := SecurityTests.loop_no_error env t hv SecurityTests.total_steps 0
    SecurityTests.init_state
  have hraised : (SecurityTests.run_mock_test env t v).raised = false := by
    rw [SecurityTests.run_raised_eq, hnone]
    rfl
  obtain ⟨st, hl, hret⟩ := SecurityTests.run_not_raised_ok env t v hraised
  exact ⟨_, hret, rfl⟩

/-- C7 witness: the built-in three-vector catalog gives total_tests =
3 * 10 on a full run. -/
theorem C7_total_tests_on_completion_witness :
    ∃ r, (SecurityTests.run_mock_test env_complete demo_target get_mock_test_vectors).ret
          = SecurityTests.RetVal.ok r
      ∧ r.summary.total_tests = get_mock_test_vectors.length * 10 :=
  C7_total_tests_on_completion env_complete demo_target get_mock_test_vectors
    (by simp [get_mock_test_vectors]) (fun i _ => rfl)

/-- C10: a run cancelled through the RunningFlag (no exception, and some
check read false) returns a result of the same shape as a completed run:
summary.total_tests is still len(vectors) * 10 and the timestamp and
target keys are present in the returned dict, so a consumer cannot
distinguish an aborted run from a completed one by result shape. -/
theorem C10_cancelled_run_has_completed_shape
    (env : SecurityTests.Env) (t : Target) (v : List TestVector)
    (hraised : (SecurityTests.run_mock_test env t v).raised = false)
    (hcancel : ∃ k < SecurityTests.total_steps, env.flagRead k = false) :
    ∃ r, (SecurityTests.run_mock_test env t v).ret = SecurityTests.RetVal.ok r
      ∧ r.summary.total_tests = v.length * 10
      ∧ get_key (SecurityTests.ret_to_val (SecurityTests.RetVal.ok r)) "timestamp"
          = some (.str env.now0)
      ∧ get_key (SecurityTests.ret_to_val (SecurityTests.RetVal.ok r)) "target"
          = some (.str t.name) := by
  obtain ⟨st, hl, hret⟩ := SecurityTests.run_not_raised_ok env t v hraised
  exact ⟨_, hret, rfl, rfl, rfl⟩

/-- C10 witness: the run cancelled at the 51st check still carries
total_tests = 30 and the timestamp/target keys. -/
theorem C10_cancelled_run_has_completed_shape_witness :
    ∃ r, (SecurityTests.run_mock_test env_cancel_50 demo_target get_mock_test_vectors).ret
          = SecurityTests.RetVal.ok r
      ∧ r.summary.total_tests = get_mock_test_vectors.length * 10
      ∧ get_key (SecurityTests.ret_to_val (SecurityTests.RetVal.ok r)) "timestamp"
          = some (.str env_cancel_50.now0)
      ∧ get_key (SecurityTests.ret_to_val (SecurityTests.RetVal.ok r)) "target"
          = some (.str demo_target.name) :=
  C10_cancelled_run_has_completed_shape env_cancel_50 demo_target get_mock_test_vectors
    (by rfl) ⟨50, by decide, rfl⟩

/-! DOI matcher lemmas: the executable matcher translated from
guared.is_valid_doi_format agrees with the declarative reading of the
pattern. -/

lemma in_doi_class_newline : in_doi_class '\n' = false := by decide

lemma doi_tail_match_iff (cs : List Char) :
    doi_tail_match cs = true ↔
      ∃ tl nl, cs = tl ++ nl ∧ tl ≠ [] ∧ (∀ a ∈ tl, in_doi_class a = true)
        ∧ (nl = [] ∨ nl = ['\n']) := by
  simp only [doi_tail_match]
  by_cases hnl : cs.getLast? = some '\n'
  · rw [if_pos hnl]
    simp only [Bool.and_eq_true, decide_eq_true_eq, List.all_eq_true]
    constructor
    · rintro ⟨hne, hall⟩
      have hcne : cs ≠ [] := by
        intro hcs
        rw [hcs] at hnl
        simp at hnl
      refine ⟨cs.dropLast, ['\n'], ?_, hne, hall, Or.inr rfl⟩
      have hlast : cs.getLast hcne = '\n' := by
        have h2 := List.getLast?_eq_getLast_of_ne_nil hcne
        rw [hnl] at h2
        exact (Option.some.inj h2).symm
      conv_lhs => rw [← List.dropLast_append_getLast hcne]
      rw [hlast]
    · rintro ⟨tl, nl, hcs, hne, hall, hnl2 | hnl2⟩
      · subst hnl2
        rw [List.append_nil] at hcs
        subst hcs
        exfalso
        have h2 := List.getLast?_eq_getLast_of_ne_nil hne
        rw [h2] at hnl
        have h3 := Option.some.inj hnl
        have hmem := List.getLast_mem hne
        rw [h3] at hmem
        exact absurd (hall _ hmem) (by decide)
      · subst hnl2
        subst hcs
        refine ⟨by rw [List.dropLast_concat]; exact hne, ?_⟩
        intro a ha
        rw [List.dropLast_concat] at ha
        exact hall a ha
  · rw [if_neg hnl]
    simp only [Bool.and_eq_true, decide_eq_true_eq, List.all_eq_true]
    constructor
    · rintro ⟨hne, hall⟩
      exact ⟨cs, [], (List.append_nil cs).symm, hne, hall, Or.inl rfl⟩
    · rintro ⟨tl, nl, hcs, hne, hall, hnl2 | hnl2⟩
      · subst hnl2
        rw [List.append_nil] at hcs
        subst hcs
        exact ⟨hne, hall⟩
      · subst hnl2
        subst hcs
        exact absurd (List.getLast?_concat tl) hnl

lemma doi_digits_slash_iff (cs : List Char) :
    doi_digits_slash cs = true ↔
      ∃ ds tl nl, cs = ds ++ '/' :: (tl ++ nl)
        ∧ 4 ≤ ds.length ∧ ds.length ≤ 9 ∧ (∀ d ∈ ds, is_digit d = true)
        ∧ tl ≠ [] ∧ (∀ a ∈ tl, in_doi_class a = true) ∧ (nl = [] ∨ nl = ['\n']) := by
  unfold doi_digits_slash
  rw [List.any_eq_true]
  constructor
  · rintro ⟨j, hj, hbody⟩
    rw [List.mem_range] at hj
    simp only [Bool.and_eq_true, decide_eq_true_eq, List.all_eq_true] at hbody
    obtain ⟨⟨hk, hdig⟩, hmatch⟩ := hbody
    cases hd : cs.drop (j + 4) with
    | nil =>
      rw [hd] at hmatch
      simp at hmatch
    | cons c rest =>
      rw [hd] at hmatch
      simp only [Bool.and_eq_true, decide_eq_true_eq] at hmatch
      obtain ⟨hc, htail⟩ := hmatch
      obtain ⟨tl, nl, hrest, hne, hall, hnlor⟩ := (doi_tail_match_iff rest).mp htail
      refine ⟨cs.take (j + 4), tl, nl, ?_, ?_, ?_, hdig, hne, hall, hnlor⟩
      · conv_lhs => rw [← List.take_append_drop (j + 4) cs]
        rw [hd, hc, hrest]
      · rw [List.length_take]
        omega
      · rw [List.length_take]
        omega
  · rintro ⟨ds, tl, nl, hcs, h4, h9, hdig, hne, hall, hnlor⟩
    subst hcs
    refine ⟨ds.length - 4, List.mem_range.mpr (by omega), ?_⟩
    have hk : ds.length - 4 + 4 = ds.length := by omega
    simp only [hk]
    rw [List.take_left, List.drop_left]
    simp only [Bool.and_eq_true, decide_eq_true_eq, List.all_eq_true]
    refine ⟨⟨?_, hdig⟩, trivial, (doi_tail_match_iff _).mpr ⟨tl, nl, rfl, hne, hall, hnlor⟩⟩
    rw [List.length_append]
    omega

lemma doi_regex_match_iff (s : String) : doi_regex_match s = true ↔ SpecDoiMatch s := by
  unfold doi_regex_match SpecDoiMatch
  cases hd : s.data with
  | nil => simp
  | cons c1 rest1 =>
    cases rest1 with
    | nil => simp
    | cons c0 rest2 =>
      cases rest2 with
      | nil => simp
      | cons c rest =>
        simp only [Bool.and_eq_true, decide_eq_true_eq]
        constructor
        · rintro ⟨⟨⟨h1, h0⟩, hcn⟩, hds⟩
          obtain ⟨ds, tl, nl, hrest, h4, h9, hdig, hne, hall, hnlor⟩ :=
            (doi_digits_slash_iff rest).mp hds
          subst h1
          subst h0
          exact ⟨c, ds, tl, nl, by rw [hrest], hcn, h4, h9, hdig, hne, hall, hnlor⟩
        · rintro ⟨cx, ds, tl, nl, hdata, hcn, h4, h9, hdig, hne, hall, hnlor⟩
          injection hdata with e1 hdata
          injection hdata with e0 hdata
          injection hdata with ec hdata
          subst e1
          subst e0
          subst ec
          exact ⟨⟨⟨rfl, rfl⟩, hcn⟩,
            (doi_digits_slash_iff rest).mpr ⟨ds, tl, nl, hdata, h4, h9, hdig, hne, hall, hnlor⟩⟩

/-- C9: is_valid_doi_format accepts exactly the strings matching
^10.\d{4,9}/[-._;()/:A-Z0-9]+$ under Python re.match with re.IGNORECASE
(declaratively: 1, 0, any non-newline character, four to nine digits, a
slash, a non-empty run of class characters, optionally one trailing
newline); it returns false for None and for non-string arguments; and
for a string failing the format check, such as "not-a-doi", validate_doi
returns false with zero network requests issued, whatever the network
would have answered. -/
theorem C9_doi_format_validation :
    (∀ s : String, is_valid_doi_format (.pyStr s) = true ↔ SpecDoiMatch s)
  ∧ (is_valid_doi_format .pyNone = false ∧ is_valid_doi_format .pyOther = false)
  ∧ (is_valid_doi_format (.pyStr "not-a-doi") = false
      ∧ ∀ respond : ℕ → Bool, validate_doi respond (.pyStr "not-a-doi") = (false, 0)) := by
  refine ⟨?_, ⟨rfl, rfl⟩, ⟨rfl, fun respond => rfl⟩⟩
  intro s
  by_cases hs : s = ""
  · subst hs
    simp only [is_valid_doi_format, if_pos rfl]
    constructor
    · intro h
      exact Bool.noConfusion h
    · rintro ⟨c, ds, tl, nl, hdata, -⟩
      have hnil : "".data = ([] : List Char) := rfl
      rw [hnil] at hdata
      exact List.noConfusion hdata
  · simp only [is_valid_doi_format, if_neg hs]
    exact doi_regex_match_iff s

/-- C9 witness: a well-formed DOI satisfies the declarative reading via
the equivalence, None is rejected, and the malformed string issues no
request even against an always-200 network. -/
theorem C9_doi_format_validation_witness :
    SpecDoiMatch "10.1234/test"
  ∧ is_valid_doi_format .pyNone = false
  ∧ validate_doi (fun _ => true) (.pyStr "not-a-doi") = (false, 0) :=
  ⟨(C9_doi_format_validation.1 "10.1234/test").mp rfl,
    C9_doi_format_validation.2.1.1,
    C9_doi_format_validation.2.2.2 (fun _ => true)⟩

end ImpactGuard
